import Mathlib

/-!
Verification development for the n8n chat-hub conversation memory resolver.

The definitions below are a shallow embedding of the chat-hub memory code:

* `packages/cli/src/modules/chat-hub/chat-hub-proxy.service.ts`
  (the legacy, parent-message-based revision of `ChatHubProxyService`);
* the turn-based revision of the same service;
* `packages/@n8n/nodes-langchain/nodes/memory/MemoryChatHub/ChatHubMessageHistory.ts`.

The history-chain utilities (`buildMessageHistory`, `extractTurnIds`,
`extractHumanMessageIds` from `chat-hub-history.utils`) and the repository
query shapes are not part of the excerpt; they are modelled from the
specification and each such definition is marked `Modelled from the spec`.
Asynchronous repository calls are modelled as pure functions over an explicit
store value, and each `getMemory` variant additionally returns the list of
memory-store queries it issued, so that "does not query the memory store" is
a provable statement. Thrown JS errors are modelled with `Except`.
-/

/-- One row of the chat-message log (`ChatMessage` of the spec's data model):
a node in the parent-linked conversation tree. -/
structure ChatMessage where
  id : String
  sessionId : String
  parentId : Option String
  role : String
  turnId : Option String
  createdAt : Nat
deriving DecidableEq, Repr

/-- Modelled from the spec: an id-to-message lookup over the flat message list
(the arena-style index of §9), used by the parent-pointer walk. -/
def findMessage (msgs : List ChatMessage) (mid : String) : Option ChatMessage :=
  msgs.find? (fun m => m.id == mid)

/-- Modelled from the spec: when no head is given, the head is the message with
the greatest `createdAt`, ties broken by insertion order (the later-inserted
message is the more recent one). -/
def latestHead : List ChatMessage → Option ChatMessage
  | [] => none
  | m :: ms =>
    match latestHead ms with
    | none => some m
    | some best => if best.createdAt ≥ m.createdAt then some best else some m

/-- One step of the parent-pointer walk: the parent message of `m`, if any. -/
def nextOf (msgs : List ChatMessage) (m : ChatMessage) : Option ChatMessage :=
  m.parentId.bind (findMessage msgs)

/-- The error message raised by the defensive cycle check. -/
def cycleErrorMsg : String := "Chat message history contains a cycle"

/-- Modelled from the spec: the parent-pointer walk of §4.1. Starting from the
optional current message it repeatedly moves to the parent, prepending each
visited message (so the result is ordered root → head), with a defensive
cycle check bounded by the total message count (the `fuel`): if the fuel is
exhausted while a current message remains, it fails fast with a
structural-corruption error instead of looping. -/
def walkParents (msgs : List ChatMessage) :
    Nat → Option ChatMessage → List ChatMessage → Except String (List ChatMessage)
  | _, none, acc => Except.ok acc
  | 0, some _, _ => Except.error cycleErrorMsg
  | Nat.succ fuel, some m, acc => walkParents msgs fuel (nextOf msgs m) (m :: acc)

/-- The chosen head: the message with the given id when a head id is supplied,
otherwise the most recent message. -/
def headOf (msgs : List ChatMessage) (headId : Option String) : Option ChatMessage :=
  match headId with
  | some h => findMessage msgs h
  | none => latestHead msgs

/-- Modelled from the spec: `buildMessageHistory` of `chat-hub-history.utils`
(not part of the excerpt). Given the full ordered message list of a session and
an optional head id, it resolves the active path from the tree root to the
chosen head, walking parent pointers with the cycle check of §4.1. -/
def buildMessageHistory (msgs : List ChatMessage) (headId : Option String) :
    Except String (List ChatMessage) :=
  walkParents msgs msgs.length (headOf msgs headId) []

/-- Modelled from the spec: `extractTurnIds` of `chat-hub-history.utils`
(not part of the excerpt): collect the `turnId` of every AI message on the
path, preserving path order, skipping nulls (§4.2, turn-based policy). -/
def extractTurnIds (chain : List ChatMessage) : List String :=
  chain.filterMap (fun m => if m.role == "ai" then m.turnId else none)

/-- Modelled from the spec: `extractHumanMessageIds` of
`chat-hub-history.utils` (not part of the excerpt): collect the `id` of every
human message on the path, preserving path order (§4.2, legacy policy). -/
def extractHumanMessageIds (chain : List ChatMessage) : List String :=
  (chain.filter (fun m => m.role == "human")).map (fun m => m.id)

/-- The ids of the messages are pairwise distinct. -/
def idsNodup (msgs : List ChatMessage) : Prop :=
  (msgs.map (fun m => m.id)).Nodup

/-- Boolean check that the parent of the message at index `i` occurs strictly
earlier in the list (append-only log invariant of §3). -/
def parentOkB (msgs : List ChatMessage) (i : Fin msgs.length) : Bool :=
  match (msgs.get i).parentId with
  | none => true
  | some pid =>
    (List.finRange msgs.length).any fun j =>
      decide (j.val < i.val) && ((msgs.get j).id == pid)

/-- Boolean check that every message's parent occurs strictly earlier. -/
def parentEarlierB (msgs : List ChatMessage) : Bool :=
  (List.finRange msgs.length).all fun i => parentOkB msgs i

/-- A valid parent-linked forest (§3 invariant): distinct ids, and each
message's parent pointer refers to an earlier message of the append-only
log, so parent chains cannot cycle. -/
def validForest (msgs : List ChatMessage) : Prop :=
  idsNodup msgs ∧ parentEarlierB msgs = true

/-- A JSON value of the host platform. `JSON.stringify` / `JSON.parse` of the
JS runtime are external to the repository; they are modelled abstractly via
this inductive together with `Content` below. -/
inductive Jx where
  | jnull
  | jbool (b : Bool)
  | jnum (n : Int)
  | jstr (s : String)
  | jarr (xs : List Jx)
  | jobj (fields : List (String × Jx))

mutual

/-- A plain JSON printer, used only where the source calls `JSON.stringify` on
an already-parsed sub-value; no claim depends on the printed text. -/
def Jx.print : Jx → String
  | .jnull => "null"
  | .jbool b => cond b "true" "false"
  | .jnum n => toString n
  | .jstr s => "\"" ++ s ++ "\""
  | .jarr xs => "[" ++ Jx.printList xs ++ "]"
  | .jobj fs => "\x7b" ++ Jx.printFields fs ++ "\x7d"

def Jx.printList : List Jx → String
  | [] => ""
  | [x] => Jx.print x
  | x :: xs => Jx.print x ++ "," ++ Jx.printList xs

def Jx.printFields : List (String × Jx) → String
  | [] => ""
  | [(k, v)] => "\"" ++ k ++ "\":" ++ Jx.print v
  | (k, v) :: fs => "\"" ++ k ++ "\":" ++ Jx.print v ++ "," ++ Jx.printFields fs

end

/-- An opaque content string of a memory entry. The platform pair
`JSON.stringify` / `JSON.parse` is modelled abstractly: `Content.val v` is the
JSON text of the value `v` (`JSON.parse` recovers exactly `v`, reflecting that
parse is a left inverse of stringify on plain data), while `Content.text s`
is a plain string that is not a valid JSON document (`JSON.parse` throws). -/
inductive Content where
  | text (s : String)
  | val (v : Jx)

/-- The result of `JSON.parse` on a content string: the parsed value, or
`none` when parsing throws. -/
def parseJson : Content → Option Jx
  | .text _ => none
  | .val v => some v

/-- The underlying character string of a content value. -/
def contentAsString : Content → String
  | .text s => s
  | .val v => Jx.print v

/-- Property access `v.key` on a parsed JSON value: field lookup on objects,
`none` (JS `undefined`) otherwise. -/
def lookupField (v : Jx) (key : String) : Option Jx :=
  match v with
  | Jx.jobj fields => (fields.find? (fun f => f.1 == key)).map (fun f => f.2)
  | _ => none

/-- One memory row of the turn-based revision (`ChatHubMemory` entity):
entries are correlated by `turnId`. -/
structure ChatHubMemory where
  id : String
  sessionId : String
  memoryNodeId : String
  turnId : String
  role : String
  content : Content
  name : Option String
  createdAt : Nat

/-- One memory row of the legacy revision: entries are correlated by
`parentMessageId`. -/
structure LegacyMemory where
  id : String
  sessionId : String
  memoryNodeId : String
  parentMessageId : Option String
  role : String
  content : Content
  name : Option String
  createdAt : Nat

/-- The `ChatHubMemoryEntry` view returned by `getMemory`:
`\x7bid, role, content, name, createdAt\x7d`. -/
structure ChatHubMemoryEntry where
  id : String
  role : String
  content : Content
  name : Option String
  createdAt : Nat

/-- A query issued against the memory store, recorded so that theorems can
state which store reads an operation performed. -/
inductive MemQuery where
  | allForNode (sessionId memoryNodeId : String)
  | byTurnIds (sessionId memoryNodeId : String) (turnIds : List String)
  | byParentMessageIds (sessionId memoryNodeId : String) (ids : List String)

/-- Projection of a turn-based memory row to the `ChatHubMemoryEntry` view. -/
def turnToEntry (e : ChatHubMemory) : ChatHubMemoryEntry :=
  { id := e.id, role := e.role, content := e.content, name := e.name,
    createdAt := e.createdAt }

/-- Projection of a legacy memory row to the `ChatHubMemoryEntry` view. -/
def legacyToEntry (e : LegacyMemory) : ChatHubMemoryEntry :=
  { id := e.id, role := e.role, content := e.content, name := e.name,
    createdAt := e.createdAt }

/-- Modelled from the spec: `listBySessionAndNode` of §4.3 (the memory
repository is not part of the excerpt): all entries of a (session, node)
pair in creation order. The store list is kept in creation (append) order. -/
def getAllMemoryForNode (store : List ChatHubMemory) (sid nid : String) :
    List ChatHubMemory :=
  store.filter (fun e => e.sessionId == sid && e.memoryNodeId == nid)

/-- Modelled from the spec: `listByCorrelationIds` of §4.3 for the turn-based
scheme: entries of the (session, node) pair whose `turnId` is in the given
set, in creation order. -/
def getMemoryByTurnIds (store : List ChatHubMemory) (sid nid : String)
    (turnIds : List String) : List ChatHubMemory :=
  store.filter (fun e =>
    e.sessionId == sid && e.memoryNodeId == nid && turnIds.contains e.turnId)

/-- Modelled from the spec: `listBySessionAndNode` of §4.3 for the legacy
store. -/
def getAllMemoryForNodeLegacy (store : List LegacyMemory) (sid nid : String) :
    List LegacyMemory :=
  store.filter (fun e => e.sessionId == sid && e.memoryNodeId == nid)

/-- Modelled from the spec: `listByCorrelationIds` of §4.3 for the legacy
scheme: entries of the (session, node) pair whose `parentMessageId` is in the
given set, in creation order. -/
def getMemoryByParentMessageIds (store : List LegacyMemory) (sid nid : String)
    (ids : List String) : List LegacyMemory :=
  store.filter (fun e =>
    e.sessionId == sid && e.memoryNodeId == nid &&
      (match e.parentMessageId with
       | some p => ids.contains p
       | none => false))

/-- JS truthiness of an optional string: `undefined`/`null` and the empty
string are falsy. -/
def truthyOptStr : Option String → Bool
  | none => false
  | some s => s != ""

/-- Embeds `getMemory` of the turn-based `ChatHubProxyService` revision.
When the provided turn id is null (manual execution) it loads all memory for
the (session, node) pair; otherwise it fetches the session's chat messages,
short-circuits on an empty message list, resolves the active path, extracts
the turn ids of its AI messages, short-circuits when none exist, and reads
the entries of those turns. The second component records the memory-store
queries issued. -/
def getMemoryTurn (sessionId memoryNodeId : String) (providedTurnId : Option String)
    (chatMessages : List ChatMessage) (store : List ChatHubMemory) :
    Except String (List ChatHubMemoryEntry × List MemQuery) :=
  match providedTurnId with
  | none =>
    Except.ok ((getAllMemoryForNode store sessionId memoryNodeId).map turnToEntry,
      [MemQuery.allForNode sessionId memoryNodeId])
  | some _ =>
    if chatMessages.isEmpty then Except.ok ([], [])
    else
      match buildMessageHistory chatMessages none with
      | Except.error e => Except.error e
      | Except.ok messageChain =>
        let turnIds := extractTurnIds messageChain
        if turnIds.isEmpty then Except.ok ([], [])
        else
          Except.ok ((getMemoryByTurnIds store sessionId memoryNodeId turnIds).map turnToEntry,
            [MemQuery.byTurnIds sessionId memoryNodeId turnIds])

/-- Embeds `resolveParentMessageId` of the legacy revision: the provided
parent message id if any, otherwise the id of the most recent human message
on the active path resolved from the latest head, otherwise null. -/
def resolveParentMessageId (initial : Option String) (msgs : List ChatMessage) :
    Except String (Option String) :=
  match initial with
  | some p => Except.ok (some p)
  | none =>
    match buildMessageHistory msgs none with
    | Except.error e => Except.error e
    | Except.ok chain => Except.ok (extractHumanMessageIds chain).getLast?

/-- Embeds the filter-set computation of legacy `getMemory` (lines 173–192):
for a regeneration the current parent message id is spliced out at its first
index if present; otherwise it is appended when absent from the chain. -/
def legacyIds (humanMessageIds : List String) (parentMessageId : String)
    (excludeCurrentFromMemory : Bool) : List String :=
  if excludeCurrentFromMemory then humanMessageIds.erase parentMessageId
  else if humanMessageIds.contains parentMessageId then humanMessageIds
  else humanMessageIds ++ [parentMessageId]

/-- The legacy whole-node read (no parent message id resolvable): load all
memory for the (session, node) pair. -/
def legacyManualRead (sid nid : String) (store : List LegacyMemory) :
    Except String (List ChatHubMemoryEntry × List MemQuery) :=
  Except.ok ((getAllMemoryForNodeLegacy store sid nid).map legacyToEntry,
    [MemQuery.allForNode sid nid])

/-- Embeds `getMemory` of the legacy `ChatHubProxyService` revision: resolve
the parent message id; when truthy, resolve the active path up to it, build
the filter set from the human-message ids (with the regeneration exclusion /
append of `legacyIds`), short-circuit when the set is empty, and read the
entries filtered by it; otherwise load the whole node history. The second
component records the memory-store queries issued. -/
def getMemoryLegacy (sid nid : String) (initial : Option String) (excl : Bool)
    (msgs : List ChatMessage) (store : List LegacyMemory) :
    Except String (List ChatHubMemoryEntry × List MemQuery) :=
  match resolveParentMessageId initial msgs with
  | Except.error e => Except.error e
  | Except.ok pmid =>
    match pmid with
    | some parentMessageId =>
      if parentMessageId != "" then
        match buildMessageHistory msgs (some parentMessageId) with
        | Except.error e => Except.error e
        | Except.ok chain =>
          let ids := legacyIds (extractHumanMessageIds chain) parentMessageId excl
          if ids.isEmpty then Except.ok ([], [])
          else
            Except.ok ((getMemoryByParentMessageIds store sid nid ids).map legacyToEntry,
              [MemQuery.byParentMessageIds sid nid ids])
      else legacyManualRead sid nid store
    | none => legacyManualRead sid nid store

/-- A workflow node as seen by the proxy service: its declared type and its
parameter record. -/
structure NodeModel where
  type : String
  parameters : List (String × Jx)

/-- A workflow as seen by the proxy service. -/
structure WorkflowModel where
  id : Option String
  name : Option String
  nodes : List NodeModel

/-- The chat-trigger node type checked by `extractAgentName`. -/
def CHAT_TRIGGER_NODE_TYPE : String := "@n8n/n8n-nodes-langchain.chatTrigger"

/-- The chat-hub memory node type; the allow-list has this single member. -/
def CHAT_HUB_MEMORY_TYPE : String := "@n8n/n8n-nodes-langchain.memoryChatHub"

/-- The allow-list of node types permitted to acquire the proxy. -/
def ALLOWED_NODES : List String := [CHAT_HUB_MEMORY_TYPE]

/-- Embeds `isAllowedNode`: membership in the allow-list. -/
def isAllowedNode (s : String) : Bool := ALLOWED_NODES.contains s

/-- The default session title (`NAME_FALLBACK`). -/
def NAME_FALLBACK : String := "Workflow Chat"

/-- Models the JS platform `String.prototype.trim()`: strip leading and
trailing whitespace (written executably so that concrete instances reduce). -/
def strTrim (s : String) : String :=
  String.mk (((s.data.dropWhile Char.isWhitespace).reverse.dropWhile
    Char.isWhitespace).reverse)

/-- The `agentName` parameter of the session's chat-trigger node, if any. -/
def agentParamOf (w : WorkflowModel) : Option Jx :=
  (w.nodes.find? (fun n => n.type == CHAT_TRIGGER_NODE_TYPE)).bind
    (fun n => (n.parameters.find? (fun f => f.1 == "agentName")).map (fun f => f.2))

/-- The workflow-name fallback of `extractAgentName`: the workflow's name when
truthy and non-blank, otherwise the fixed default. -/
def nameOr (w : WorkflowModel) : String :=
  match w.name with
  | some nm => if nm != "" && strTrim nm != "" then nm else NAME_FALLBACK
  | none => NAME_FALLBACK

/-- Embeds `extractAgentName`: the chat-trigger node's `agentName` parameter
when it is a non-blank string, else the workflow-name fallback. -/
def extractAgentName (w : WorkflowModel) : String :=
  match agentParamOf w with
  | some (Jx.jstr s) => if strTrim s != "" then s else nameOr w
  | _ => nameOr w

/-- The two error classes thrown by the turn-based revision:
`UnexpectedError` (authorization/structural) and `UserError` (user-facing
configuration errors). -/
inductive ChatErr where
  | unexpected (msg : String)
  | user (msg : String)

/-- The capability handle returned by the turn-based
`makeChatHubOperations`: the captured per-request state of the closure.
`turnId` is the correlation key stamped on every write through this handle. -/
structure TurnHandle where
  sessionId : String
  memoryNodeId : String
  providedTurnId : Option String
  turnId : String
  ownerId : String
  workflowId : Option String
  agentName : String

/-- Embeds the turn-based `makeChatHubOperations` closure state: the write
correlation key is the provided turn id when non-null, otherwise one fresh
uuid minted at handle creation (`providedTurnId ?? uuid()`); the uuid call is
modelled as the explicit `mintedUuid` argument. -/
def makeChatHubOperationsTurn (sessionId memoryNodeId : String)
    (providedTurnId : Option String) (ownerId : String)
    (workflowId : Option String) (agentName : String) (mintedUuid : String) :
    TurnHandle :=
  { sessionId, memoryNodeId, providedTurnId,
    turnId := providedTurnId.getD mintedUuid,
    ownerId, workflowId, agentName }

/-- Embeds the turn-based `getChatHubProxy`: validate the requesting node's
type against the allow-list (`UnexpectedError` on failure), require a truthy
owner id (`UserError` otherwise), then return the bound operations. -/
def getChatHubProxyTurn (w : WorkflowModel) (node : NodeModel)
    (sessionId memoryNodeId : String) (turnId : Option String)
    (mintedUuid : String) (ownerId : Option String) :
    Except ChatErr TurnHandle :=
  if !isAllowedNode node.type then
    Except.error (ChatErr.unexpected "This proxy is only available for Chat Hub Memory nodes")
  else
    match ownerId with
    | some o =>
      if o != "" then
        Except.ok (makeChatHubOperationsTurn sessionId memoryNodeId turnId o
          w.id (extractAgentName w) mintedUuid)
      else
        Except.error (ChatErr.user "Chat Hub Memory is only available on Chat hub and manual executions.")
    | none =>
      Except.error (ChatErr.user "Chat Hub Memory is only available on Chat hub and manual executions.")

/-- The capability handle of the legacy `makeChatHubOperations`. -/
structure LegacyHandle where
  sessionId : String
  memoryNodeId : String
  initialParentMessageId : Option String
  excludeCurrentFromMemory : Bool
  ownerId : String
  workflowId : Option String
  agentName : String

/-- Embeds the legacy `getChatHubProxy`: same gating, with a plain `Error`
(modelled as the message string) when the owner id is falsy. -/
def getChatHubProxyLegacy (w : WorkflowModel) (node : NodeModel)
    (sessionId memoryNodeId : String) (parentMessageId : Option String)
    (excludeCurrentFromMemory : Bool) (ownerId : Option String) :
    Except String LegacyHandle :=
  if !isAllowedNode node.type then
    Except.error "This proxy is only available for Chat Hub Memory nodes"
  else
    match ownerId with
    | some o =>
      if o != "" then
        Except.ok
          { sessionId, memoryNodeId, initialParentMessageId := parentMessageId,
            excludeCurrentFromMemory, ownerId := o, workflowId := w.id,
            agentName := extractAgentName w }
      else
        Except.error "Owner ID is required for Chat Hub Memory. For manual executions, ensure the user context is available."
    | none =>
      Except.error "Owner ID is required for Chat Hub Memory. For manual executions, ensure the user context is available."

/-- The memory row written by the turn-based `addHumanMessage`: role `human`,
name `User`, stamped with the handle's turn id. The fresh uuid and the
creation timestamp set by the store are explicit arguments. -/
def addHumanMessageEntry (h : TurnHandle) (freshId : String) (now : Nat)
    (content : Content) : ChatHubMemory :=
  { id := freshId, sessionId := h.sessionId, memoryNodeId := h.memoryNodeId,
    turnId := h.turnId, role := "human", content, name := some "User",
    createdAt := now }

/-- The memory row written by the turn-based `addAIMessage`: role `ai`,
name `AI`, stamped with the handle's turn id. -/
def addAIMessageEntry (h : TurnHandle) (freshId : String) (now : Nat)
    (content : Content) : ChatHubMemory :=
  { id := freshId, sessionId := h.sessionId, memoryNodeId := h.memoryNodeId,
    turnId := h.turnId, role := "ai", content, name := some "AI",
    createdAt := now }

/-- The memory row written by the turn-based `addToolMessage`: role `tool`,
content `JSON.stringify(\x7btoolCallId, toolName, toolInput, toolOutput\x7d)`,
named after the tool, stamped with the handle's turn id. -/
def addToolMessageEntry (h : TurnHandle) (freshId : String) (now : Nat)
    (toolCallId toolName : String) (toolInput toolOutput : Jx) : ChatHubMemory :=
  { id := freshId, sessionId := h.sessionId, memoryNodeId := h.memoryNodeId,
    turnId := h.turnId, role := "tool",
    content := Content.val (Jx.jobj
      [("toolCallId", Jx.jstr toolCallId), ("toolName", Jx.jstr toolName),
       ("toolInput", toolInput), ("toolOutput", toolOutput)]),
    name := some toolName, createdAt := now }

/-- `getMemory` as invoked through a turn-based handle: the closure reads the
captured `providedTurnId` (not the minted write key). -/
def getMemoryTurnH (h : TurnHandle) (chatMessages : List ChatMessage)
    (store : List ChatHubMemory) :
    Except String (List ChatHubMemoryEntry × List MemQuery) :=
  getMemoryTurn h.sessionId h.memoryNodeId h.providedTurnId chatMessages store

/-- One `ConversationSession` row (`chat_hub_session`): the fields set by
`ensureSession` when creating the row. `new Date()` is modelled as the
explicit `lastMessageAt` timestamp. -/
structure ChatSessionRow where
  id : String
  ownerId : String
  title : String
  lastMessageAt : Nat
  provider : String
  workflowId : Option String
  agentName : String

/-- Modelled from the spec: the session repository's `existsById` (not part
of the excerpt): existence by id scoped to owner (§4.4). -/
def existsById (store : List ChatSessionRow) (sessionId ownerId : String) : Bool :=
  store.any (fun r => r.id == sessionId && r.ownerId == ownerId)

/-- Modelled from the spec: the session repository's `createChatSession`
(not part of the excerpt). Session ids are globally unique (§3) and §4.4
requires that a duplicate-key failure on insert after a racing existence
check be treated as success, not propagated: the insert of an already-present
id returns successfully leaving the store unchanged. -/
def createChatSession (store : List ChatSessionRow) (row : ChatSessionRow) :
    List ChatSessionRow :=
  if store.any (fun r => r.id == row.id) then store else store ++ [row]

/-- The session row built by `ensureSession`'s create call. -/
def mkSessionRow (sessionId ownerId title : String) (workflowId : Option String)
    (agentName : String) (now : Nat) : ChatSessionRow :=
  { id := sessionId, ownerId, title, lastMessageAt := now, provider := "n8n",
    workflowId, agentName }

/-- Embeds the legacy title computation `title || agentName`: JS truthiness,
so a provided empty-string title falls back to the agent name. -/
def resolveTitle (title : Option String) (agentName : String) : String :=
  match title with
  | some t => if t != "" then t else agentName
  | none => agentName

/-- Embeds the legacy `ensureSession(title?)`: check existence by (id, owner);
when absent, create the row titled `title || agentName`. -/
def ensureSessionLegacy (store : List ChatSessionRow) (sessionId ownerId : String)
    (title : Option String) (workflowId : Option String) (agentName : String)
    (now : Nat) : List ChatSessionRow :=
  if existsById store sessionId ownerId then store
  else
    createChatSession store
      (mkSessionRow sessionId ownerId (resolveTitle title agentName) workflowId agentName now)

/-- Embeds the turn-based `ensureSession()`: no caller title exists; the row
is always titled with the agent name. -/
def ensureSessionTurn (store : List ChatSessionRow) (sessionId ownerId : String)
    (workflowId : Option String) (agentName : String) (now : Nat) :
    List ChatSessionRow :=
  if existsById store sessionId ownerId then store
  else createChatSession store (mkSessionRow sessionId ownerId agentName workflowId agentName now)

/-- The racing schedule of §4.4: two `ensureSession` calls for the same
(session, owner) interleave so that both existence checks run against the
initial store before either insert runs; then both inserts run in order. -/
def ensureSessionRaceTurn (store : List ChatSessionRow) (sessionId ownerId : String)
    (workflowId : Option String) (agentName : String) (n1 n2 : Nat) :
    List ChatSessionRow :=
  let check1 := existsById store sessionId ownerId
  let check2 := existsById store sessionId ownerId
  let store1 :=
    if check1 then store
    else createChatSession store (mkSessionRow sessionId ownerId agentName workflowId agentName n1)
  if check2 then store1
  else createChatSession store1 (mkSessionRow sessionId ownerId agentName workflowId agentName n2)

/-- A LangChain message handed to `ChatHubMessageHistory.addMessage`. The
`content` is its string form (`typeof content === 'string'` branch); AI
messages carry an optional `tool_calls` value, tool messages a call id and an
optional tool name. -/
inductive InMessage where
  | human (content : String)
  | ai (content : String) (toolCalls : Option Jx)
  | tool (content : String) (toolCallId : String) (name : Option String)
  | system (content : String)

/-- A call forwarded by `addMessage` to the memory service. -/
inductive ServiceWrite where
  | human (content : Content)
  | ai (content : Content)
  | tool (toolCallId : String) (toolName : String) (input : Jx) (output : Jx)

/-- The stored AI payload `JSON.stringify(\x7bcontent, toolCalls\x7d)`
(`StoredAIMessageWithToolCalls`). -/
def encodeAIStored (content : String) (toolCalls : Jx) : Content :=
  Content.val (Jx.jobj [("content", Jx.jstr content), ("toolCalls", toolCalls)])

/-- Embeds `ChatHubMessageHistory.addMessage`: human content is forwarded
as-is; AI messages are stored as the JSON payload of content and
`tool_calls ?? []`; tool messages forward call id, `name ?? 'unknown'`, an
empty input and the content as output; system messages are not saved. -/
def chmhAddMessage : InMessage → Option ServiceWrite
  | InMessage.human c => some (ServiceWrite.human (Content.text c))
  | InMessage.ai c tc => some (ServiceWrite.ai (encodeAIStored c (tc.getD (Jx.jarr []))))
  | InMessage.tool c tcid nm =>
    some (ServiceWrite.tool tcid (nm.getD "unknown") (Jx.jobj []) (Jx.jstr c))
  | InMessage.system _ => none

/-- Embeds `parseAIMessageContent`: parse the stored AI payload; on success
take `parsed.content` when it is a string (otherwise its JSON text; an absent
field, JS `undefined`, is modelled as the string "undefined" — unreachable
for payloads written by `addMessage`) and `parsed.toolCalls ?? []`; when
`JSON.parse` throws, fall back to the raw content with no tool calls. -/
def parseAIMessageContent (c : Content) : String × Jx :=
  match parseJson c with
  | some v =>
    (match lookupField v "content" with
     | some (Jx.jstr s) => s
     | some w => Jx.print w
     | none => "undefined",
     match lookupField v "toolCalls" with
     | some Jx.jnull => Jx.jarr []
     | some w => w
     | none => Jx.jarr [])
  | none => (contentAsString c, Jx.jarr [])

/-- The record produced by `parseToolMessageContent`; field values are raw
parsed JSON values (the source casts without validating). -/
structure ToolData where
  toolCallId : Jx
  toolName : Jx
  toolInput : Jx
  toolOutput : Jx

/-- Embeds `parseToolMessageContent`: on success return the parsed record
(absent fields, JS `undefined`, modelled as `jnull` — unreachable for
payloads written by this code); when `JSON.parse` throws, fall back to the
`unknown` tool identity with the raw content as output. -/
def parseToolMessageContent (c : Content) : ToolData :=
  match parseJson c with
  | some v =>
    { toolCallId := (lookupField v "toolCallId").getD Jx.jnull,
      toolName := (lookupField v "toolName").getD Jx.jnull,
      toolInput := (lookupField v "toolInput").getD Jx.jnull,
      toolOutput := (lookupField v "toolOutput").getD Jx.jnull }
  | none =>
    { toolCallId := Jx.jstr "unknown", toolName := Jx.jstr "unknown",
      toolInput := Jx.jobj [], toolOutput := Jx.jstr (contentAsString c) }

/-- A LangChain message produced by `convertToLangChainMessage`. The tool
constructor's id and name fields hold raw parsed values, as in the source. -/
inductive LCMessage where
  | human (content : String) (name : Option String)
  | ai (content : String) (name : Option String) (toolCalls : Jx)
  | system (content : String)
  | tool (content : String) (toolCallId : Jx) (name : Jx)

/-- Embeds `convertToLangChainMessage`: dispatch on the entry role; AI and
tool contents go through the fallback-parsing decoders; unknown roles are
treated as system messages. -/
def convertToLangChainMessage (e : ChatHubMemoryEntry) : LCMessage :=
  match e.role with
  | "human" => LCMessage.human (contentAsString e.content) e.name
  | "ai" =>
    let aiData := parseAIMessageContent e.content
    LCMessage.ai aiData.1 e.name aiData.2
  | "system" => LCMessage.system (contentAsString e.content)
  | "tool" =>
    let t := parseToolMessageContent e.content
    LCMessage.tool (Jx.print t.toolOutput) t.toolCallId t.toolName
  | _ => LCMessage.system (contentAsString e.content)

/-- Embeds `ChatHubMessageHistory.getMessages` over the entries returned by
the memory service: convert every entry. -/
def getMessages (entries : List ChatHubMemoryEntry) : List LCMessage :=
  entries.map convertToLangChainMessage

/-- One step of the parent-pointer walk on an optional current message. -/
def nextOpt (msgs : List ChatMessage) (o : Option ChatMessage) : Option ChatMessage :=
  o.bind (nextOf msgs)

/-- The parent chain: `k` steps of the parent-pointer walk. -/
def nextIter (msgs : List ChatMessage) : Nat → Option ChatMessage → Option ChatMessage
  | 0, o => o
  | Nat.succ k, o => nextIter msgs k (nextOpt msgs o)

/-- Fixture: a three-message active path `h1 → a1 → h2` (human, ai, human). -/
def msgH1 : ChatMessage :=
  { id := "h1", sessionId := "s", parentId := none, role := "human",
    turnId := none, createdAt := 1 }

/-- Fixture: the AI reply to `h1`. -/
def msgA1 : ChatMessage :=
  { id := "a1", sessionId := "s", parentId := some "h1", role := "ai",
    turnId := some "t1", createdAt := 2 }

/-- Fixture: the second human turn, child of `a1`. -/
def msgH2 : ChatMessage :=
  { id := "h2", sessionId := "s", parentId := some "a1", role := "human",
    turnId := none, createdAt := 3 }

/-- Fixture: a two-turn session log. -/
def msgsTwoTurns : List ChatMessage := [msgH1, msgA1, msgH2]

/-- Fixture: a valid two-message forest (root plus one child). -/
def msgsForest : List ChatMessage :=
  [{ id := "r", sessionId := "s", parentId := none, role := "human",
     turnId := none, createdAt := 1 },
   { id := "c", sessionId := "s", parentId := some "r", role := "ai",
     turnId := some "t1", createdAt := 2 }]

/-- Fixture: the message `a` of a two-message parent-pointer cycle. -/
def msgCycA : ChatMessage :=
  { id := "a", sessionId := "s", parentId := some "b", role := "human",
    turnId := none, createdAt := 1 }

/-- Fixture: the message `b` of a two-message parent-pointer cycle. -/
def msgCycB : ChatMessage :=
  { id := "b", sessionId := "s", parentId := some "a", role := "ai",
    turnId := none, createdAt := 2 }

/-- Fixture: a corrupted message list whose parent pointers form a cycle. -/
def msgsCycle : List ChatMessage := [msgCycA, msgCycB]

/-- Fixture: one stored turn-based memory entry for session `s`, node `n`. -/
def entryS : ChatHubMemory :=
  { id := "m1", sessionId := "s", memoryNodeId := "n", turnId := "t1",
    role := "ai", content := Content.text "hello", name := some "AI",
    createdAt := 5 }

/-- Fixture: a workflow whose chat-trigger node carries agent name `Agent`. -/
def wfAgent : WorkflowModel :=
  { id := some "wf1", name := some "My Workflow",
    nodes := [{ type := CHAT_TRIGGER_NODE_TYPE,
                parameters := [("agentName", Jx.jstr "Agent")] }] }

/-- Fixture: a workflow with no nodes and no name. -/
def wfBare : WorkflowModel := { id := none, name := none, nodes := [] }

/-- Fixture: a chat-hub memory node (allow-listed type). -/
def nodeMemory : NodeModel := { type := CHAT_HUB_MEMORY_TYPE, parameters := [] }

theorem findMessage_eq_some (msgs : List ChatMessage) (mid : String)
    (m : ChatMessage) (h : findMessage msgs mid = some m) :
    m ∈ msgs ∧ m.id = mid := by
  unfold findMessage at h
  refine ⟨List.mem_of_find?_eq_some h, ?_⟩
  have hp := List.find?_some h
  simpa using hp

theorem id_inj (msgs : List ChatMessage) (hnd : idsNodup msgs)
    (i j : Fin msgs.length) (h : (msgs.get i).id = (msgs.get j).id) : i = j := by
  unfold idsNodup at hnd
  have hi : (msgs.map (fun m => m.id)).get ⟨i.val, by simp⟩ = (msgs.get i).id := by
    simp
  have hj : (msgs.map (fun m => m.id)).get ⟨j.val, by simp⟩ = (msgs.get j).id := by
    simp
  have key : (msgs.map (fun m => m.id)).get ⟨i.val, by simp⟩
      = (msgs.map (fun m => m.id)).get ⟨j.val, by simp⟩ := by
    rw [hi, hj]; exact h
  have hfin := (List.Nodup.get_inj_iff hnd).mp key
  have hv : i.val = j.val := by simpa using congrArg Fin.val hfin
  exact Fin.ext hv

theorem findMessage_get (msgs : List ChatMessage) (hnd : idsNodup msgs)
    (j : Fin msgs.length) :
    findMessage msgs ((msgs.get j).id) = some (msgs.get j) := by
  cases h : findMessage msgs ((msgs.get j).id) with
  | none =>
    exfalso
    have := List.find?_eq_none.mp h (msgs.get j) (List.get_mem msgs j.val j.isLt)
    simp at this
  | some m =>
    obtain ⟨hm, hid⟩ := findMessage_eq_some msgs _ m h
    obtain ⟨k, hk⟩ := List.mem_iff_get.mp hm
    have : k = j := id_inj msgs hnd k j (by rw [hk, hid])
    rw [← hk, this]

theorem parentEarlier_of (msgs : List ChatMessage) (h : parentEarlierB msgs = true)
    (i : Fin msgs.length) (pid : String) (hp : (msgs.get i).parentId = some pid) :
    ∃ j : Fin msgs.length, j.val < i.val ∧ (msgs.get j).id = pid := by
  have hi := List.all_eq_true.mp h i (List.mem_finRange i)
  unfold parentOkB at hi
  split at hi
  · next heq => rw [hp] at heq; cases heq
  · next pid2 heq =>
    rw [hp] at heq
    cases heq
    obtain ⟨j, _, hj⟩ := List.any_eq_true.mp hi
    rw [Bool.and_eq_true] at hj
    exact ⟨j, of_decide_eq_true hj.1, by simpa using hj.2⟩

theorem walkParents_ok (msgs : List ChatMessage) (hv : validForest msgs) :
    ∀ fuel (i : Fin msgs.length) (acc : List ChatMessage),
      i.val < fuel →
      (∀ a ∈ acc, ∃ k : Fin msgs.length, a = msgs.get k ∧ i.val < k.val) →
      (acc.map (fun m => m.id)).Nodup →
      ∃ l, walkParents msgs fuel (some (msgs.get i)) acc = Except.ok l ∧
        (l.map (fun m => m.id)).Nodup := by
  intro fuel
  induction fuel with
  | zero => intro i acc hlt; omega
  | succ fuel ih =>
    intro i acc hlt hacc hnd
    have hnd2 : ((msgs.get i :: acc).map (fun m => m.id)).Nodup := by
      rw [List.map_cons, List.nodup_cons]
      refine ⟨?_, hnd⟩
      intro hmem
      obtain ⟨a, ha, hida⟩ := List.mem_map.mp hmem
      obtain ⟨k, hk, hik⟩ := hacc a ha
      have : i = k := id_inj msgs hv.1 i k (by rw [← hida, hk])
      omega
    rw [walkParents]
    cases hp : (msgs.get i).parentId with
    | none =>
      have hn : nextOf msgs (msgs.get i) = none := by
        unfold nextOf; rw [hp]; rfl
      rw [hn, walkParents]
      exact ⟨msgs.get i :: acc, rfl, hnd2⟩
    | some pid =>
      obtain ⟨j, hji, hjid⟩ := parentEarlier_of msgs hv.2 i pid hp
      have hfind : findMessage msgs pid = some (msgs.get j) := by
        have := findMessage_get msgs hv.1 j
        rw [hjid] at this
        exact this
      have hn : nextOf msgs (msgs.get i) = some (msgs.get j) := by
        unfold nextOf; rw [hp]; simpa using hfind
      rw [hn]
      refine ih j (msgs.get i :: acc) (by omega) ?_ hnd2
      intro a ha
      rcases List.mem_cons.mp ha with h1 | h2
      · exact ⟨i, h1, hji⟩
      · obtain ⟨k, hk, hik⟩ := hacc a h2
        exact ⟨k, hk, by omega⟩

theorem latestHead_mem :
    ∀ (msgs : List ChatMessage) (m : ChatMessage), latestHead msgs = some m → m ∈ msgs := by
  intro msgs
  induction msgs with
  | nil => intro m h; cases h
  | cons a ms ih =>
    intro m h
    cases hl : latestHead ms with
    | none =>
      have h2 : a = m := by
        rw [latestHead, hl] at h
        simpa using h
      exact List.mem_cons.mpr (Or.inl h2.symm)
    | some best =>
      by_cases hc : best.createdAt ≥ a.createdAt
      · have h2 : best = m := by
          rw [latestHead, hl] at h
          simpa [hc] using h
        exact List.mem_cons.mpr (Or.inr (h2 ▸ ih best hl))
      · have h2 : a = m := by
          rw [latestHead, hl] at h
          simpa [hc] using h
        exact List.mem_cons.mpr (Or.inl h2.symm)

theorem headOf_mem (msgs : List ChatMessage) (headId : Option String)
    (head : ChatMessage) (h : headOf msgs headId = some head) : head ∈ msgs := by
  unfold headOf at h
  cases headId with
  | some hid => exact (findMessage_eq_some msgs hid head h).1
  | none => exact latestHead_mem msgs head h

theorem nextIter_add (msgs : List ChatMessage) (a b : Nat) (o : Option ChatMessage) :
    nextIter msgs (a + b) o = nextIter msgs b (nextIter msgs a o) := by
  induction a generalizing o with
  | zero => simp [nextIter]
  | succ a ih =>
    have hs : a + 1 + b = (a + b) + 1 := by omega
    rw [hs]
    show nextIter msgs (a + b) (nextOpt msgs o) = nextIter msgs b (nextIter msgs a (nextOpt msgs o))
    exact ih (nextOpt msgs o)

theorem nextIter_none (msgs : List ChatMessage) (k : Nat) :
    nextIter msgs k none = none := by
  induction k with
  | zero => rfl
  | succ k ih => show nextIter msgs k (nextOpt msgs none) = none; exact ih

theorem nextIter_absorb (msgs : List ChatMessage) (o : Option ChatMessage)
    (m m2 : Nat) (hle : m ≤ m2) (h : nextIter msgs m o = none) :
    nextIter msgs m2 o = none := by
  obtain ⟨d, rfl⟩ := Nat.exists_eq_add_of_le hle
  rw [nextIter_add, h, nextIter_none]

theorem walkParents_error (msgs : List ChatMessage) :
    ∀ fuel (cur : Option ChatMessage) (acc : List ChatMessage),
      (∀ k ≤ fuel, nextIter msgs k cur ≠ none) →
      walkParents msgs fuel cur acc = Except.error cycleErrorMsg := by
  intro fuel
  induction fuel with
  | zero =>
    intro cur acc h
    cases cur with
    | none => exact absurd rfl (h 0 (Nat.le_refl 0))
    | some m => rfl
  | succ fuel ih =>
    intro cur acc h
    cases cur with
    | none => exact absurd rfl (h 0 (Nat.zero_le _))
    | some m =>
      rw [walkParents]
      refine ih (nextOf msgs m) (m :: acc) ?_
      intro k hk
      have := h (k + 1) (by omega)
      exact this

theorem cycle_diverges (msgs : List ChatMessage) (head : ChatMessage)
    (k1 k2 : Nat) (hlt : k1 < k2)
    (heq : nextIter msgs k1 (some head) = nextIter msgs k2 (some head))
    (hne : nextIter msgs k1 (some head) ≠ none) :
    ∀ k, nextIter msgs k (some head) ≠ none := by
  intro k
  induction k using Nat.strong_induction_on with
  | _ k ih =>
    by_cases hk : k ≤ k2
    · intro h0
      have h2 : nextIter msgs k2 (some head) = none :=
        nextIter_absorb msgs (some head) k k2 hk h0
      exact hne (heq.trans h2)
    · have hdecomp : k = k2 + (k - k2) := by omega
      have hstep : nextIter msgs k (some head)
          = nextIter msgs (k1 + (k - k2)) (some head) := by
        calc nextIter msgs k (some head)
            = nextIter msgs (k2 + (k - k2)) (some head) := by rw [← hdecomp]
          _ = nextIter msgs (k - k2) (nextIter msgs k2 (some head)) := nextIter_add ..
          _ = nextIter msgs (k - k2) (nextIter msgs k1 (some head)) := by rw [← heq]
          _ = nextIter msgs (k1 + (k - k2)) (some head) := (nextIter_add ..).symm
      rw [hstep]
      exact ih (k1 + (k - k2)) (by omega)

theorem getMemoryLegacy_some_eq (sid nid p : String) (excl : Bool)
    (msgs : List ChatMessage) (store : List LegacyMemory) (chain : List ChatMessage)
    (hp : p ≠ "") (hb : buildMessageHistory msgs (some p) = Except.ok chain) :
    getMemoryLegacy sid nid (some p) excl msgs store =
      (if (legacyIds (extractHumanMessageIds chain) p excl).isEmpty then
        Except.ok ([], [])
      else
        Except.ok
          ((getMemoryByParentMessageIds store sid nid
              (legacyIds (extractHumanMessageIds chain) p excl)).map legacyToEntry,
           [MemQuery.byParentMessageIds sid nid
              (legacyIds (extractHumanMessageIds chain) p excl)])) := by
  have hp2 : (p != "") = true := by simpa using hp
  unfold getMemoryLegacy resolveParentMessageId
  simp only [hp2, if_true, hb]

theorem getMemoryTurn_chain_eq (sid nid t : String) (msgs : List ChatMessage)
    (store : List ChatHubMemory) (chain : List ChatMessage)
    (hb : buildMessageHistory msgs none = Except.ok chain) :
    getMemoryTurn sid nid (some t) msgs store =
      (if msgs.isEmpty then Except.ok ([], [])
       else if (extractTurnIds chain).isEmpty then Except.ok ([], [])
       else
         Except.ok
           ((getMemoryByTurnIds store sid nid (extractTurnIds chain)).map turnToEntry,
            [MemQuery.byTurnIds sid nid (extractTurnIds chain)])) := by
  unfold getMemoryTurn
  cases hm : msgs.isEmpty with
  | true => simp [hm]
  | false => simp only [hm, Bool.false_eq_true, if_false, hb]

theorem walkParents_none (msgs : List ChatMessage) (fuel : Nat)
    (acc : List ChatMessage) : walkParents msgs fuel none acc = Except.ok acc := by
  cases fuel with
  | zero => rfl
  | succ fuel => rfl

theorem not_mem_erase_self (p : String) :
    ∀ (l : List String), l.Nodup → p ∉ l.erase p := by
  intro l
  induction l with
  | nil => intro _ h; simp at h
  | cons a l ih =>
    intro hnd hmem
    rw [List.erase_cons] at hmem
    by_cases hap : a = p
    · rw [if_pos (by simpa using hap)] at hmem
      subst hap
      exact (List.nodup_cons.mp hnd).1 hmem
    · rw [if_neg (by simpa using hap)] at hmem
      rcases List.mem_cons.mp hmem with h1 | h2
      · exact hap h1.symm
      · exact ih (List.nodup_cons.mp hnd).2 h2

/-- C1: in the legacy correlation scheme, for every active path `getMemory`
builds its filter set from the ids of the human messages on the path in path
order; under `excludeCurrentFromMemory` the current `parentMessageId` is
removed from that set, and otherwise it is appended when absent; hence while
regenerating turn T2 of a path T1 → T2 the filter set excludes T2's anchor
but includes T1's. -/
theorem legacy_getMemory_filter_set (sid nid p : String) (excl : Bool)
    (msgs : List ChatMessage) (store : List LegacyMemory) (chain : List ChatMessage)
    (hp : p ≠ "") (hb : buildMessageHistory msgs (some p) = Except.ok chain) :
    (getMemoryLegacy sid nid (some p) excl msgs store =
      (if (legacyIds (extractHumanMessageIds chain) p excl).isEmpty then
        Except.ok ([], [])
      else
        Except.ok
          ((getMemoryByParentMessageIds store sid nid
              (legacyIds (extractHumanMessageIds chain) p excl)).map legacyToEntry,
           [MemQuery.byParentMessageIds sid nid
              (legacyIds (extractHumanMessageIds chain) p excl)])))
    ∧ legacyIds (extractHumanMessageIds chain) p excl
        = (if excl then (extractHumanMessageIds chain).erase p
           else if (extractHumanMessageIds chain).contains p then
             extractHumanMessageIds chain
           else extractHumanMessageIds chain ++ [p])
    ∧ (excl = true → (extractHumanMessageIds chain).Nodup →
        p ∉ legacyIds (extractHumanMessageIds chain) p excl)
    ∧ (∀ t1, excl = true → extractHumanMessageIds chain = [t1, p] → t1 ≠ p →
        legacyIds (extractHumanMessageIds chain) p excl = [t1]) := by
  refine ⟨getMemoryLegacy_some_eq sid nid p excl msgs store chain hp hb, rfl, ?_, ?_⟩
  · intro he hnd
    subst he
    simpa [legacyIds] using not_mem_erase_self p (extractHumanMessageIds chain) hnd
  · intro t1 he hch hne
    subst he
    have h1 : (t1 == p) = false := by simpa using hne
    simp [legacyIds, hch, List.erase_cons, h1]

/-- Witness for C1: regenerating turn T2 (`h2`) of the two-turn path
`h1 → a1 → h2` filters by `h1` only. -/
theorem legacy_getMemory_filter_set_witness :
    getMemoryLegacy "s" "n" (some "h2") true msgsTwoTurns [] =
      Except.ok ([], [MemQuery.byParentMessageIds "s" "n" ["h1"]]) := by
  have h := legacy_getMemory_filter_set "s" "n" "h2" true msgsTwoTurns []
    [msgH1, msgA1, msgH2] (by decide) rfl
  rw [h.1]
  rfl

/-- C2: in both correlation schemes, whenever the extracted correlation-id
sequence (AI turn ids, or human-message ids after the regeneration
exclusion) is empty, `getMemory` returns the empty sequence and issues no
memory-store query. -/
theorem getMemory_empty_correlation_short_circuit
    (sid nid t p : String) (excl : Bool)
    (msgsT : List ChatMessage) (storeT : List ChatHubMemory) (chainT : List ChatMessage)
    (msgsL : List ChatMessage) (storeL : List LegacyMemory) (chainL : List ChatMessage)
    (hbT : buildMessageHistory msgsT none = Except.ok chainT)
    (htT : extractTurnIds chainT = [])
    (hp : p ≠ "")
    (hbL : buildMessageHistory msgsL (some p) = Except.ok chainL)
    (hidsL : legacyIds (extractHumanMessageIds chainL) p excl = []) :
    getMemoryTurn sid nid (some t) msgsT storeT = Except.ok ([], [])
    ∧ getMemoryLegacy sid nid (some p) excl msgsL storeL = Except.ok ([], []) := by
  constructor
  · rw [getMemoryTurn_chain_eq sid nid t msgsT storeT chainT hbT]
    simp [htT]
  · rw [getMemoryLegacy_some_eq sid nid p excl msgsL storeL chainL hp hbL]
    simp [hidsL]

/-- Witness for C2: a brand-new session (no messages) yields empty correlation
sequences and an empty memory read with no store query, in both schemes. -/
theorem getMemory_empty_correlation_short_circuit_witness :
    getMemoryTurn "s" "n" (some "t") [] [] = Except.ok ([], [])
    ∧ getMemoryLegacy "s" "n" (some "x") true [] [] = Except.ok ([], []) :=
  getMemory_empty_correlation_short_circuit "s" "n" "t" "x" true [] [] [] [] [] []
    rfl rfl (by decide) rfl rfl

/-- Counterexample to C3: in manual execution (no turn hint) on a session with
an empty chat-message list, `getMemory` issues a whole-node memory-store query
and returns its (non-empty) result instead of short-circuiting. -/
theorem getMemory_manual_empty_session_queries_store :
    getMemoryTurn "s" "n" none [] [entryS] =
      Except.ok ([turnToEntry entryS], [MemQuery.allForNode "s" "n"])
    ∧ getMemoryTurn "s" "n" none [] [entryS] ≠ Except.ok ([], []) := by
  constructor
  · rfl
  · intro h
    rw [show getMemoryTurn "s" "n" none [] [entryS] =
        Except.ok ([turnToEntry entryS], [MemQuery.allForNode "s" "n"]) from rfl] at h
    simp at h

/-- C3 (amended): on a session with an empty chat-message list, `getMemory`
returns an empty sequence without issuing a memory-store query only in the
turn-based revision when a turn hint was provided. In manual / no-hint
execution both revisions instead load the whole node history, issuing a
whole-node store query; and the legacy revision given a head hint has no
empty-list check: when not regenerating it appends the hint to the filter set
and issues a `byParentMessageIds` query for it (it short-circuits only in the
regeneration case, where the excluded hint leaves the set empty). -/
theorem getMemory_empty_message_list_amended (sid nid t p : String)
    (storeT : List ChatHubMemory) (storeL : List LegacyMemory) (excl : Bool)
    (hp : p ≠ "") :
    getMemoryTurn sid nid (some t) [] storeT = Except.ok ([], [])
    ∧ getMemoryTurn sid nid none [] storeT =
        Except.ok ((getAllMemoryForNode storeT sid nid).map turnToEntry,
          [MemQuery.allForNode sid nid])
    ∧ getMemoryLegacy sid nid none excl [] storeL =
        Except.ok ((getAllMemoryForNodeLegacy storeL sid nid).map legacyToEntry,
          [MemQuery.allForNode sid nid])
    ∧ getMemoryLegacy sid nid (some p) false [] storeL =
        Except.ok ((getMemoryByParentMessageIds storeL sid nid [p]).map legacyToEntry,
          [MemQuery.byParentMessageIds sid nid [p]])
    ∧ getMemoryLegacy sid nid (some p) true [] storeL = Except.ok ([], []) := by
  refine ⟨rfl, rfl, rfl, ?_, ?_⟩
  · rw [getMemoryLegacy_some_eq sid nid p false [] storeL [] hp rfl]
    rfl
  · rw [getMemoryLegacy_some_eq sid nid p true [] storeL [] hp rfl]
    rfl

/-- Witness for C3 (amended): with a turn hint and no messages the turn-based
revision short-circuits; with a head hint and no messages the legacy revision
queries the store for the hint itself when not regenerating. -/
theorem getMemory_empty_message_list_amended_witness :
    getMemoryTurn "s" "n" (some "t") [] [] = Except.ok ([], [])
    ∧ getMemoryLegacy "s" "n" (some "p") false [] [] =
        Except.ok (([] : List ChatHubMemoryEntry),
          [MemQuery.byParentMessageIds "s" "n" ["p"]]) := by
  have h := getMemory_empty_message_list_amended "s" "n" "t" "p" [] [] false (by decide)
  exact ⟨h.1, h.2.2.2.1⟩

/-- C4: on a valid parent-linked forest, resolving the active path terminates
with a path that visits each message at most once (its ids are pairwise
distinct); and when a parent-pointer cycle is reachable from the chosen head
(the parent chain from the head repeats a state without ever reaching the
root), resolution raises the structural-corruption error instead of looping. -/
theorem buildMessageHistory_terminates_or_cycle_error (msgs : List ChatMessage)
    (headId : Option String) :
    (validForest msgs →
      ∃ l, buildMessageHistory msgs headId = Except.ok l ∧
        (l.map (fun m => m.id)).Nodup)
    ∧ (∀ head k1 k2, headOf msgs headId = some head → k1 < k2 →
        nextIter msgs k1 (some head) = nextIter msgs k2 (some head) →
        nextIter msgs k1 (some head) ≠ none →
        buildMessageHistory msgs headId = Except.error cycleErrorMsg) := by
  constructor
  · intro hv
    unfold buildMessageHistory
    cases hh : headOf msgs headId with
    | none =>
      rw [walkParents_none]
      exact ⟨[], rfl, List.nodup_nil⟩
    | some head =>
      obtain ⟨i, hi⟩ := List.mem_iff_get.mp (headOf_mem msgs headId head hh)
      rw [← hi]
      exact walkParents_ok msgs hv msgs.length i [] i.isLt
        (by intro a ha; exact absurd ha (List.not_mem_nil a)) List.nodup_nil
  · intro head k1 k2 hh hlt heq hne
    unfold buildMessageHistory
    rw [hh]
    refine walkParents_error msgs msgs.length (some head) [] ?_
    intro k _
    exact cycle_diverges msgs head k1 k2 hlt heq hne k

/-- Witness for C4: the two-message forest resolves successfully with distinct
ids, and the two-message cycle `a ↔ b` makes resolution from head `a` fail
with the structural-corruption error. -/
theorem buildMessageHistory_terminates_or_cycle_error_witness :
    (∃ l, buildMessageHistory msgsForest none = Except.ok l ∧
      (l.map (fun m => m.id)).Nodup)
    ∧ buildMessageHistory msgsCycle (some "a") = Except.error cycleErrorMsg := by
  constructor
  · exact (buildMessageHistory_terminates_or_cycle_error msgsForest none).1
      (by constructor
          · show (msgsForest.map (fun m => m.id)).Nodup
            decide
          · decide)
  · exact (buildMessageHistory_terminates_or_cycle_error msgsCycle (some "a")).2
      msgCycA 0 2 rfl (by decide) rfl (by decide)

/-- C5: round-trip — `addMessage` on an AI message with content string `c`
and tool-call list `t` forwards the JSON payload `\x7bcontent, toolCalls\x7d`
to `addAIMessage`, and reading the stored entry back through `getMessages`
yields an AI message whose content equals `c` and whose tool calls equal `t`. -/
theorem ai_message_tool_calls_roundtrip (c : String) (t : List Jx)
    (idv : String) (name : Option String) (ts : Nat) :
    chmhAddMessage (InMessage.ai c (some (Jx.jarr t)))
      = some (ServiceWrite.ai (encodeAIStored c (Jx.jarr t)))
    ∧ getMessages
        [{ id := idv, role := "ai", content := encodeAIStored c (Jx.jarr t),
           name := name, createdAt := ts }]
      = [LCMessage.ai c name (Jx.jarr t)] := by
  constructor
  · rfl
  · rfl

/-- C6: a stored entry whose content is not a valid structured payload never
makes the read throw: a corrupt AI entry decodes to its raw content string
with an empty tool-call list, a corrupt tool entry decodes to the `unknown`
tool identity with the raw content as output, and converting a list with a
corrupt entry still converts every entry (one corrupt entry never blocks the
rest). -/
theorem corrupt_entry_decoding_fallback (s : String) (idv : String)
    (name : Option String) (ts : Nat) (entries : List ChatHubMemoryEntry) :
    parseAIMessageContent (Content.text s) = (s, Jx.jarr [])
    ∧ parseToolMessageContent (Content.text s) =
        { toolCallId := Jx.jstr "unknown", toolName := Jx.jstr "unknown",
          toolInput := Jx.jobj [], toolOutput := Jx.jstr s }
    ∧ getMessages
        ({ id := idv, role := "ai", content := Content.text s, name := name,
           createdAt := ts } :: entries)
      = LCMessage.ai s name (Jx.jarr []) :: getMessages entries
    ∧ (getMessages entries).length = entries.length := by
  refine ⟨rfl, rfl, rfl, ?_⟩
  unfold getMessages
  exact List.length_map entries convertToLangChainMessage

/-- C7: when two `ensureSession` calls race for a new session id (both
existence checks run before either insert), the duplicate insert is treated
as success — no error is surfaced and the store is left unchanged by the
second insert — and exactly one session row with that id results. -/
theorem ensureSession_duplicate_insert_race (store : List ChatSessionRow)
    (sid owner an : String) (wfid : Option String) (n1 n2 : Nat)
    (hnew : (store.any fun r => r.id == sid) = false) :
    ((ensureSessionRaceTurn store sid owner wfid an n1 n2).filter
        (fun r => r.id == sid)).length = 1
    ∧ createChatSession (createChatSession store (mkSessionRow sid owner an wfid an n1))
        (mkSessionRow sid owner an wfid an n2)
      = createChatSession store (mkSessionRow sid owner an wfid an n1) := by
  have hex : existsById store sid owner = false := by
    unfold existsById
    by_contra hx
    rw [Bool.not_eq_false] at hx
    obtain ⟨r, hr, hpr⟩ := List.any_eq_true.mp hx
    rw [Bool.and_eq_true] at hpr
    have hany : (store.any fun r => r.id == sid) = true :=
      List.any_eq_true.mpr ⟨r, hr, hpr.1⟩
    rw [hnew] at hany
    cases hany
  have hnew2 : (store.any fun r => r.id == (mkSessionRow sid owner an wfid an n1).id) = false := by
    simpa [mkSessionRow] using hnew
  have hc1 : createChatSession store (mkSessionRow sid owner an wfid an n1)
      = store ++ [mkSessionRow sid owner an wfid an n1] := by
    unfold createChatSession
    rw [hnew2]
    rfl
  have hc2 : createChatSession (store ++ [mkSessionRow sid owner an wfid an n1])
        (mkSessionRow sid owner an wfid an n2)
      = store ++ [mkSessionRow sid owner an wfid an n1] := by
    unfold createChatSession
    have hany : ((store ++ [mkSessionRow sid owner an wfid an n1]).any
        fun r => r.id == (mkSessionRow sid owner an wfid an n2).id) = true := by
      refine List.any_eq_true.mpr ⟨mkSessionRow sid owner an wfid an n1, ?_, ?_⟩
      · simp
      · simp [mkSessionRow]
    rw [hany]
    rfl
  have hfilter : (store.filter fun r => r.id == sid) = [] := by
    rw [List.filter_eq_nil_iff]
    intro a ha
    have := List.any_eq_false.mp hnew a ha
    simpa using this
  constructor
  · unfold ensureSessionRaceTurn
    rw [hex]
    simp only [Bool.false_eq_true, if_false]
    rw [hc1, hc2, List.filter_append, hfilter]
    simp [mkSessionRow]
  · rw [hc1, hc2]

/-- Witness for C7: the race on an empty store leaves exactly one row. -/
theorem ensureSession_duplicate_insert_race_witness :
    ((ensureSessionRaceTurn [] "s" "o" (some "wf") "Agent" 1 2).filter
        (fun r => r.id == "s")).length = 1 :=
  (ensureSession_duplicate_insert_race [] "s" "o" "Agent" (some "wf") 1 2 rfl).1

/-- C8: acquiring the proxy without a resolvable owner identity fails before
any operation is usable — the turn-based revision with a user-facing
configuration error (`UserError`), the legacy revision with an error whose
message instructs the operator to ensure the user context — and neither
revision ever returns an operations surface in that case. -/
theorem getChatHubProxy_missing_owner_errors (w : WorkflowModel) (node : NodeModel)
    (sid nid : String) (tid : Option String) (minted : String)
    (pm : Option String) (excl : Bool)
    (hallow : isAllowedNode node.type = true) :
    getChatHubProxyTurn w node sid nid tid minted none
      = Except.error
          (ChatErr.user "Chat Hub Memory is only available on Chat hub and manual executions.")
    ∧ getChatHubProxyLegacy w node sid nid pm excl none
      = Except.error
          "Owner ID is required for Chat Hub Memory. For manual executions, ensure the user context is available."
    ∧ (∀ h, getChatHubProxyTurn w node sid nid tid minted none ≠ Except.ok h)
    ∧ (∀ h, getChatHubProxyLegacy w node sid nid pm excl none ≠ Except.ok h) := by
  have h1 : getChatHubProxyTurn w node sid nid tid minted none
      = Except.error
          (ChatErr.user "Chat Hub Memory is only available on Chat hub and manual executions.") := by
    unfold getChatHubProxyTurn
    rw [hallow]
    rfl
  have h2 : getChatHubProxyLegacy w node sid nid pm excl none
      = Except.error
          "Owner ID is required for Chat Hub Memory. For manual executions, ensure the user context is available." := by
    unfold getChatHubProxyLegacy
    rw [hallow]
    rfl
  refine ⟨h1, h2, ?_, ?_⟩
  · intro h hc
    rw [h1] at hc
    cases hc
  · intro h hc
    rw [h2] at hc
    cases hc

/-- Witness for C8: an allow-listed memory node without an owner id gets the
user-facing configuration error from the turn-based revision. -/
theorem getChatHubProxy_missing_owner_errors_witness :
    getChatHubProxyTurn wfBare nodeMemory "s" "n" none "u" none
      = Except.error
          (ChatErr.user "Chat Hub Memory is only available on Chat hub and manual executions.") :=
  (getChatHubProxy_missing_owner_errors wfBare nodeMemory "s" "n" none "u" none false rfl).1

/-- Counterexample to C9: a caller-given empty-string title is "provided", yet
the created row is titled with the agent name (`title || agentName` tests JS
truthiness), not with the given title. -/
theorem ensureSession_empty_title_counterexample :
    ((ensureSessionLegacy [] "s" "o" (some "") none (extractAgentName wfAgent) 0).map
        (fun r => r.title)) = ["Agent"]
    ∧ ((ensureSessionLegacy [] "s" "o" (some "") none (extractAgentName wfAgent) 0).map
        (fun r => r.title)) ≠ [""] := by
  constructor
  · rfl
  · intro h
    rw [show ((ensureSessionLegacy [] "s" "o" (some "") none (extractAgentName wfAgent) 0).map
        (fun r => r.title)) = ["Agent"] from rfl] at h
    exact absurd h (by decide)

/-- C9 (amended): a created session row is titled by the caller-given title
when one is provided and non-empty (the legacy code tests JS truthiness, so a
provided empty-string title falls through); otherwise by the chat-trigger
node's non-blank `agentName` parameter; otherwise by the workflow's non-blank
name; otherwise by the fixed default `Workflow Chat`. The turn-based revision
takes no caller title and always titles the row with the agent name. -/
theorem ensureSession_title_resolution_amended
    (store : List ChatSessionRow) (sid owner : String) (title : Option String)
    (wfid : Option String) (w : WorkflowModel) (now : Nat)
    (hnew : (store.any fun r => r.id == sid) = false)
    (hown : existsById store sid owner = false) :
    ensureSessionLegacy store sid owner title wfid (extractAgentName w) now
      = store ++ [mkSessionRow sid owner (resolveTitle title (extractAgentName w))
          wfid (extractAgentName w) now]
    ∧ ensureSessionTurn store sid owner wfid (extractAgentName w) now
      = store ++ [mkSessionRow sid owner (extractAgentName w) wfid (extractAgentName w) now]
    ∧ (∀ t2, title = some t2 → t2 ≠ "" → resolveTitle title (extractAgentName w) = t2)
    ∧ (title = none → resolveTitle title (extractAgentName w) = extractAgentName w)
    ∧ (title = some "" → resolveTitle title (extractAgentName w) = extractAgentName w)
    ∧ (∀ s2, agentParamOf w = some (Jx.jstr s2) → strTrim s2 ≠ "" →
        extractAgentName w = s2)
    ∧ (∀ s2, agentParamOf w = some (Jx.jstr s2) → strTrim s2 = "" →
        extractAgentName w = nameOr w)
    ∧ (agentParamOf w = none → extractAgentName w = nameOr w)
    ∧ (∀ nm, w.name = some nm → nm ≠ "" → strTrim nm ≠ "" → nameOr w = nm)
    ∧ (∀ nm, w.name = some nm → strTrim nm = "" → nameOr w = NAME_FALLBACK)
    ∧ (w.name = none → nameOr w = NAME_FALLBACK)
    ∧ NAME_FALLBACK = "Workflow Chat" := by
  have hc : ∀ ttl : String,
      createChatSession store (mkSessionRow sid owner ttl wfid (extractAgentName w) now)
        = store ++ [mkSessionRow sid owner ttl wfid (extractAgentName w) now] := by
    intro ttl
    unfold createChatSession
    have hx : (store.any fun r =>
        r.id == (mkSessionRow sid owner ttl wfid (extractAgentName w) now).id) = false := by
      simpa [mkSessionRow] using hnew
    rw [hx]
    rfl
  refine ⟨?_, ?_, ?_, ?_, ?_, ?_, ?_, ?_, ?_, ?_, ?_, rfl⟩
  · unfold ensureSessionLegacy
    rw [hown]
    simpa using hc (resolveTitle title (extractAgentName w))
  · unfold ensureSessionTurn
    rw [hown]
    simpa using hc (extractAgentName w)
  · intro t2 ht hne
    subst ht
    have h2 : (t2 != "") = true := by simpa using hne
    simp [resolveTitle, h2]
  · intro ht; subst ht; rfl
  · intro ht; subst ht; rfl
  · intro s2 hap hne
    unfold extractAgentName
    rw [hap]
    have h2 : (strTrim s2 != "") = true := by simpa using hne
    simp [h2]
  · intro s2 hap hemp
    unfold extractAgentName
    rw [hap]
    simp [hemp]
  · intro hap
    unfold extractAgentName
    rw [hap]
  · intro nm hnm hne htr
    unfold nameOr
    rw [hnm]
    have h1 : (nm != "") = true := by simpa using hne
    have h2 : (strTrim nm != "") = true := by simpa using htr
    simp [h1, h2]
  · intro nm hnm htr
    unfold nameOr
    rw [hnm]
    simp [htr]
  · intro hnm
    unfold nameOr
    rw [hnm]

/-- Witness for C9 (amended): a non-empty caller title `Custom` titles the
created row. -/
theorem ensureSession_title_resolution_amended_witness :
    ensureSessionLegacy [] "s" "o" (some "Custom") (some "wf1") (extractAgentName wfAgent) 7
      = [] ++ [mkSessionRow "s" "o"
          (resolveTitle (some "Custom") (extractAgentName wfAgent)) (some "wf1")
          (extractAgentName wfAgent) 7] :=
  (ensureSession_title_resolution_amended [] "s" "o" (some "Custom") (some "wf1")
    wfAgent 7 rfl rfl).1

/-- C10: every memory entry written through one turn-based handle (human, AI
or tool) carries the same `turnId` — the caller-provided turn id when
non-null, otherwise the single uuid minted at handle creation — while
`getMemory` through a handle with a null provided turn id ignores the minted
id and loads the whole node history. -/
theorem turn_handle_writes_share_turnId
    (sid nid owner minted an : String) (wfid : Option String) (pt : Option String)
    (i1 i2 i3 : String) (n1 n2 n3 : Nat) (c1 c2 : Content)
    (tcid tnm : String) (tin tout : Jx)
    (msgs : List ChatMessage) (store : List ChatHubMemory) :
    (addHumanMessageEntry (makeChatHubOperationsTurn sid nid pt owner wfid an minted)
        i1 n1 c1).turnId
      = (makeChatHubOperationsTurn sid nid pt owner wfid an minted).turnId
    ∧ (addAIMessageEntry (makeChatHubOperationsTurn sid nid pt owner wfid an minted)
        i2 n2 c2).turnId
      = (makeChatHubOperationsTurn sid nid pt owner wfid an minted).turnId
    ∧ (addToolMessageEntry (makeChatHubOperationsTurn sid nid pt owner wfid an minted)
        i3 n3 tcid tnm tin tout).turnId
      = (makeChatHubOperationsTurn sid nid pt owner wfid an minted).turnId
    ∧ (∀ t, pt = some t →
        (makeChatHubOperationsTurn sid nid pt owner wfid an minted).turnId = t)
    ∧ (pt = none →
        (makeChatHubOperationsTurn sid nid pt owner wfid an minted).turnId = minted)
    ∧ (pt = none → ∀ minted2,
        getMemoryTurnH (makeChatHubOperationsTurn sid nid pt owner wfid an minted) msgs store
          = getMemoryTurnH (makeChatHubOperationsTurn sid nid pt owner wfid an minted2) msgs store)
    ∧ (pt = none →
        getMemoryTurnH (makeChatHubOperationsTurn sid nid pt owner wfid an minted) msgs store
          = Except.ok ((getAllMemoryForNode store sid nid).map turnToEntry,
              [MemQuery.allForNode sid nid])) := by
  refine ⟨rfl, rfl, rfl, ?_, ?_, ?_, ?_⟩
  · intro t ht; subst ht; rfl
  · intro ht; subst ht; rfl
  · intro ht minted2; subst ht; rfl
  · intro ht; subst ht; rfl

/-- Witness for C10: with a null provided turn id, the handle's write key is
the uuid minted at creation. -/
theorem turn_handle_writes_share_turnId_witness :
    (makeChatHubOperationsTurn "s" "n" none "o" none "Agent" "uuid-1").turnId = "uuid-1" :=
  (turn_handle_writes_share_turnId "s" "n" "o" "uuid-1" "Agent" none none
    "i1" "i2" "i3" 1 2 3 (Content.text "a") (Content.text "b") "tc" "tool"
    (Jx.jobj []) Jx.jnull [] []).2.2.2.2.1 rfl
